import Mathlib

/-!
# Budget-alert throttling gate: shallow embedding and verification

Shallow embedding of `src/cloud-functions/main.py` (a GCP cloud function
that throttles budget-alert notifications to at most one per monitored
project per calendar month, using Firestore as the durable ledger).

Modelling decisions, all taken from the source:

* Strings are `List Char`, so that substring search (`in` / `str.split`)
  is structurally recursive and kernel-computable.
* Timestamps: the program only ever reads the `year` and `month` civil
  fields of pendulum instants already expressed in the fixed reference
  timezone `"Asia/Bangkok"`; `BkkDateTime` carries those fields plus the
  day.  `convert_to_timestamp_with_bkk` (a strftime / parse / `in_tz`
  round-trip in the source, which preserves the instant) is the identity
  on this representation.
* Firestore: the collection `budget-alert-notification-stats`, keyed by
  project id with single field `last_noti`, is a function
  `Key → Option BkkDateTime`; a write is a functional update.  The
  source wraps the whole read/decide/write block in
  `try ... except Exception: print(...)`, which makes the function
  return Python `None` on a store failure; the `storeFails` flag models
  the store raising inside that block, and the result type
  `Option Bool` models the three Python outcomes `True` / `False` /
  `None`.
* JSON numbers (`costAmount`, `budgetAmount`, `alertThresholdExceeded`)
  are `ℚ`.  The float literals `0.75` and `1.0` of the source are the
  reduced rationals `threshold_75` and `threshold_100`, written in
  constructor form so that the kernel can evaluate comparisons.
* `send_teams` is the out-of-scope HTTP collaborator: an evaluation's
  outcome is reified as an `Action` (either no action, or the decision
  to post, carrying the resolved project id and the rendered
  title/content/color that would be passed to `send_teams`).
-/

namespace BudgetAlert

/-- A pendulum instant normalized to the reference timezone
`"Asia/Bangkok"`: the civil fields the program reads (`year`, `month`)
plus the day, enough to state the concrete scenarios. -/
structure BkkDateTime where
  year : Int
  month : Nat
  day : Nat
deriving DecidableEq, Repr

/-- An entity key (Firestore document id): a Python string. -/
abbrev Key := List Char

/-- The Firestore collection `budget-alert-notification-stats`: one
optional `last_noti` timestamp per project id. -/
abbrev Ledger := Key → Option BkkDateTime

/-- A Firestore state with no document at all. -/
def emptyLedger : Ledger := fun _ => none

/-- `doc(project_id).set/update {last_noti: t}`: the ledger after the
record of `k` is written to `t`. -/
def updateLedger (db : Ledger) (k : Key) (t : BkkDateTime) : Ledger :=
  fun k2 => if k2 = k then some t else db k2

/-- `red_code = "DC4731"` of the source (used by both threshold
branches; the warning color of the spec's two-bucket policy). -/
def red_code : List Char := "DC4731".toList

/-- `green_code = "50C878"` of the source (declared, never used). -/
def green_code : List Char := "50C878".toList

/-- The fixed suffix marker `"-bigquery-notification"` that
`get_alert_name` recognizes. -/
def markerL : List Char := "-bigquery-notification".toList

/-- Everything before the first occurrence of `sep` in `s`, when `sep`
occurs in `s` at all: `some (s.split(sep)[0])` exactly when the Python
test `sep in s` succeeds, `none` otherwise. -/
def splitFirst (sep : List Char) : List Char → Option (List Char)
  | [] => if sep.isPrefixOf ([] : List Char) then some [] else none
  | c :: rest =>
    if sep.isPrefixOf (c :: rest) then some []
    else (splitFirst sep rest).map (fun r => c :: r)

/-- `InvalidAlertNameException(alert_name)` of the source (its `message`
field is the constant `"Alert name is not valid"`). -/
inductive AlertExc where
  | invalidAlertName (alert_name : List Char)
deriving DecidableEq, Repr

/-- `get_alert_name`: if `"-bigquery-notification" in alert_name`,
return `alert_name.split("-bigquery-notification")[0]` (the part before
the first occurrence); otherwise raise `InvalidAlertNameException`. -/
def get_alert_name (alert_name : List Char) : Except AlertExc (List Char) :=
  match splitFirst markerL alert_name with
  | some project_to_assign => Except.ok project_to_assign
  | none => Except.error (AlertExc.invalidAlertName alert_name)

/-- `get_month_and_year(timestamp)` returning `(month, year)`. -/
def get_month_and_year (timestamp : BkkDateTime) : Nat × Int :=
  (timestamp.month, timestamp.year)

/-- `convert_to_timestamp_with_bkk`: in the source, a
strftime / `pendulum.parse` / `in_tz("Asia/Bangkok")` round-trip that
preserves the underlying instant; since `BkkDateTime` already denotes
the instant's Bangkok civil fields, the conversion is the identity. -/
def convert_to_timestamp_with_bkk (timestamp_from_firestore : BkkDateTime) : BkkDateTime :=
  timestamp_from_firestore

/-- `has_one_month_passed(current_timestamp, last_notify_timestamp)`:
true iff the current (year, month) is strictly later, lexicographically,
than the last-notify (year, month). -/
def has_one_month_passed (current_timestamp last_notify_timestamp : BkkDateTime) : Bool :=
  let (current_month, current_year) := get_month_and_year current_timestamp
  let (last_notify_month, last_notify_year) := get_month_and_year last_notify_timestamp
  (current_year > last_notify_year) ||
    (current_year == last_notify_year && current_month > last_notify_month)

/-- `check_to_notify_per_month(project_id)`: reads the project's
`last_noti` document; if absent, seeds it with the current instant and
returns `True`; if present and a calendar month has rolled over, updates
it and returns `True`; otherwise returns `False` with no write.  The
whole block runs inside `try ... except Exception: print(...)`, so if
the store raises (`storeFails`) the function prints and falls off the
end, returning Python `None` — modelled as `none`.  The current instant
(`pendulum.now("Asia/Bangkok")`) is passed explicitly. -/
def check_to_notify_per_month (storeFails : Bool) (db : Ledger) (project_id : Key)
    (current_timestamp : BkkDateTime) : Option Bool × Ledger :=
  if storeFails then (none, db)
  else
    match db project_id with
    | none => (some true, updateLedger db project_id current_timestamp)
    | some stored =>
      let last_notify_in_bkk := convert_to_timestamp_with_bkk stored
      if has_one_month_passed current_timestamp last_notify_in_bkk then
        (some true, updateLedger db project_id current_timestamp)
      else
        (some false, db)

/-- The inbound pub/sub payload after base64 / JSON decoding: the four
fields `subscribe` reads. -/
structure AlertEvent where
  costAmount : ℚ
  budgetAmount : ℚ
  budgetDisplayName : List Char
  alertThresholdExceeded : Option ℚ
deriving DecidableEq

/-- The float literal `0.75` of the source, as the reduced rational
3/4 in constructor form (kernel-computable comparisons). -/
def threshold_75 : ℚ := ⟨3, 4, by decide, by decide⟩

/-- The float literal `1.0` of the source. -/
def threshold_100 : ℚ := 1

/-- `"{:.0f}".format` applied to `t * 100`: the percentage rounded to
the nearest integer, computed on num/den directly so the kernel can
evaluate it (`⌊100·t + 1/2⌋`; Python rounds ties to even, but no tie is
reachable from the thresholds the program dispatches on). -/
def pct (t : ℚ) : Int :=
  Int.fdiv (200 * t.num + (t.den : Int)) (2 * (t.den : Int))

/-- The `title` string built by `subscribe`:
`"💸 Cost reaches {:.0f}% from {}".format(alertThresholdExceeded * 100, budget_display_name)`. -/
def mkTitle (threshold : ℚ) (budget_display_name : List Char) : List Char :=
  "💸 Cost reaches ".toList ++ (toString (pct threshold)).toList ++
    "% from ".toList ++ budget_display_name

/-- Decimal rendering of a JSON amount for the message body (`str` of
the number; a non-integral amount is shown as `num/den`). -/
def showAmount (q : ℚ) : List Char :=
  if q.den = 1 then (toString q.num).toList
  else (toString q.num).toList ++ "/".toList ++ (toString (q.den : Int)).toList

/-- The `content` string built by `subscribe` (the triple-quoted HTML
template with budget name, current cost and budget cost interpolated). -/
def mkContent (budget_display_name : List Char) (cost_amount budget_amount : ℚ) : List Char :=
  "\n            Budget name \x27".toList ++ budget_display_name ++
    "\x27<br>\n            Current cost is <b>$".toList ++ showAmount cost_amount ++
    "</b>.<br>\n            Budget cost is <b>$".toList ++ showAmount budget_amount ++
    "</b>.<br>\n            💸 💸 💸 💸\n        ".toList

/-- The observable outcome of one invocation: either nothing was posted,
or `send_teams(webhook_url, content, title, color)` was called once for
the resolved project. -/
inductive Action where
  | noAction : Action
  | notify (project_id : Key) (title content color : List Char) : Action
deriving DecidableEq

/-- `subscribe(cloud_event)`: the top-level entry, after base64/JSON
decoding.  Resolves the project id (propagating
`InvalidAlertNameException`), then: if `alertThresholdExceeded` is
absent, does nothing (both the cost ≤ budget branch and the fall-through
over-budget branch take no action); if present, renders the message,
runs the monthly throttle check, and posts via `send_teams` only when
the check returned `True` (Python truthiness: `None` and `False` both
skip) and the threshold is exactly `0.75` or `1.0`.  Returns the
outcome together with the resulting Firestore state. -/
def subscribe (storeFails : Bool) (db : Ledger) (ev : AlertEvent) (now : BkkDateTime) :
    Except AlertExc (Action × Ledger) :=
  let cost_amount := ev.costAmount
  let budget_amount := ev.budgetAmount
  let budget_display_name := ev.budgetDisplayName
  let alertThresholdExceeded := ev.alertThresholdExceeded
  match get_alert_name budget_display_name with
  | Except.error e => Except.error e
  | Except.ok project_id =>
    match alertThresholdExceeded with
    | none =>
      if cost_amount ≤ budget_amount then Except.ok (Action.noAction, db)
      else Except.ok (Action.noAction, db)
    | some threshold =>
      let content := mkContent budget_display_name cost_amount budget_amount
      let title := mkTitle threshold budget_display_name
      let res := check_to_notify_per_month storeFails db project_id now
      let should_notify := res.1
      if should_notify = some true then
        if threshold = threshold_75 then
          Except.ok (Action.notify project_id title content red_code, res.2)
        else if threshold = threshold_100 then
          Except.ok (Action.notify project_id title content red_code, res.2)
        else
          Except.ok (Action.noAction, res.2)
      else
        Except.ok (Action.noAction, res.2)

/-! ## Concrete inputs used by witnesses and counterexamples -/

/-- The entity key `"proj-x"`. -/
def projX : Key := "proj-x".toList

/-- A well-formed alert label: `"proj-x-bigquery-notification"`. -/
def labelX : List Char := "proj-x-bigquery-notification".toList

/-- A label with no marker: `"no-marker-here"`. -/
def noMarker : List Char := "no-marker-here".toList

/-- The float literal `0.5`, a threshold neither branch handles. -/
def threshold_half : ℚ := ⟨1, 2, by decide, by decide⟩

/-- The spec's end-to-end event: cost 120, budget 100, label
`"proj-x-bigquery-notification"`, threshold 0.75. -/
def ev75 : AlertEvent := ⟨120, 100, labelX, some threshold_75⟩

/-- The same event with the unhandled threshold 0.5. -/
def evHalf : AlertEvent := ⟨120, 100, labelX, some threshold_half⟩

/-- Threshold absent, cost 50 ≤ budget 100, marker-less label. -/
def evAbsentBad : AlertEvent := ⟨50, 100, noMarker, none⟩

/-- Threshold absent, cost 50 ≤ budget 100, well-formed label. -/
def evAbsentGood : AlertEvent := ⟨50, 100, labelX, none⟩

/-- Threshold 0.5 with a marker-less label. -/
def evHalfBad : AlertEvent := ⟨120, 100, noMarker, some threshold_half⟩

/-- An event whose label is exactly the marker (empty entity key). -/
def evMarkerOnly : AlertEvent := ⟨120, 100, markerL, some threshold_75⟩

/-- 2024-05-10 (Bangkok civil date). -/
def d20240510 : BkkDateTime := ⟨2024, 5, 10⟩

/-- 2024-05-20, same calendar month as `d20240510`. -/
def d20240520 : BkkDateTime := ⟨2024, 5, 20⟩

/-- 2024-06-10, one calendar month after `d20240510`. -/
def d20240610 : BkkDateTime := ⟨2024, 6, 10⟩

/-- The ledger after the first notification for `"proj-x"` on
2024-05-10. -/
def ledgerX : Ledger := updateLedger emptyLedger projX d20240510

/-! ## Helper lemmas -/

/-- Unfolding equation of `splitFirst` at `[]`. -/
theorem splitFirst_nil (sep : List Char) :
    splitFirst sep [] = if sep.isPrefixOf ([] : List Char) then some [] else none := by
  rw [splitFirst]

/-- Unfolding equation of `splitFirst` at `c :: rest`. -/
theorem splitFirst_cons (sep : List Char) (c : Char) (rest : List Char) :
    splitFirst sep (c :: rest) =
      if sep.isPrefixOf (c :: rest) then some []
      else (splitFirst sep rest).map (fun r => c :: r) := by
  rw [splitFirst]

/-- `splitFirst` misses exactly when `sep` is not a substring. -/
theorem splitFirst_eq_none_iff (sep : List Char) :
    ∀ s : List Char, splitFirst sep s = none ↔ ¬ sep <:+: s := by
  intro s
  induction s with
  | nil =>
    rw [splitFirst_nil]
    by_cases h : sep.isPrefixOf ([] : List Char)
    · rw [if_pos h]
      have hpre : sep <+: ([] : List Char) := List.isPrefixOf_iff_prefix.mp h
      simp [hpre.isInfix]
    · rw [if_neg h]
      have hni : ¬ sep <:+: ([] : List Char) := by
        intro hin
        rw [List.infix_nil] at hin
        exact h (List.isPrefixOf_iff_prefix.mpr (by rw [hin]))
      simp [hni]
  | cons c rest ih =>
    rw [splitFirst_cons]
    by_cases h : sep.isPrefixOf (c :: rest)
    · rw [if_pos h]
      have hpre : sep <+: c :: rest := List.isPrefixOf_iff_prefix.mp h
      simp [hpre.isInfix]
    · rw [if_neg h]
      have hnp : ¬ sep <+: c :: rest := fun hp => h (List.isPrefixOf_iff_prefix.mpr hp)
      rw [Option.map_eq_none', ih, List.infix_cons_iff]
      tauto

/-- A `splitFirst` hit is a decomposition around an occurrence of
`sep`. -/
theorem splitFirst_eq_some_append (sep : List Char) :
    ∀ s r : List Char, splitFirst sep s = some r → ∃ rest, s = r ++ sep ++ rest := by
  intro s
  induction s with
  | nil =>
    intro r hr
    rw [splitFirst_nil] at hr
    by_cases h : sep.isPrefixOf ([] : List Char)
    · rw [if_pos h] at hr
      obtain ⟨t, ht⟩ := List.isPrefixOf_iff_prefix.mp h
      cases hr
      have hsep : sep = [] := (List.append_eq_nil.mp ht).1
      exact ⟨[], by simp [hsep]⟩
    · rw [if_neg h] at hr
      simp at hr
  | cons c rest ih =>
    intro r hr
    rw [splitFirst_cons] at hr
    by_cases h : sep.isPrefixOf (c :: rest)
    · rw [if_pos h] at hr
      obtain ⟨t, ht⟩ := List.isPrefixOf_iff_prefix.mp h
      cases hr
      exact ⟨t, by simp [ht]⟩
    · rw [if_neg h, Option.map_eq_some'] at hr
      obtain ⟨r2, hr2, hcons⟩ := hr
      obtain ⟨t, ht⟩ := ih r2 hr2
      refine ⟨t, ?_⟩
      subst hcons
      simp [ht]

/-- A `splitFirst` hit is the decomposition at the FIRST occurrence:
every occurrence of `sep` in `s` starts at or after it. -/
theorem splitFirst_first_occurrence (sep : List Char) :
    ∀ s r : List Char, splitFirst sep s = some r →
      ∀ pre suf : List Char, s = pre ++ sep ++ suf → r.length ≤ pre.length := by
  intro s
  induction s with
  | nil =>
    intro r hr pre suf hdec
    rw [splitFirst_nil] at hr
    by_cases h : sep.isPrefixOf ([] : List Char)
    · rw [if_pos h] at hr
      cases hr
      simp
    · rw [if_neg h] at hr
      simp at hr
  | cons c rest ih =>
    intro r hr pre suf hdec
    rw [splitFirst_cons] at hr
    by_cases h : sep.isPrefixOf (c :: rest)
    · rw [if_pos h] at hr
      cases hr
      simp
    · rw [if_neg h, Option.map_eq_some'] at hr
      obtain ⟨r2, hr2, hcons⟩ := hr
      match pre, hdec with
      | [], hdec =>
        exfalso
        exact h (List.isPrefixOf_iff_prefix.mpr ⟨suf, by simpa using hdec.symm⟩)
      | p :: pre2, hdec =>
        have htail : rest = pre2 ++ sep ++ suf := by
          have h2 := hdec
          simp only [List.cons_append, List.cons.injEq] at h2
          exact h2.2
        have hlen := ih r2 hr2 pre2 suf htail
        subst hcons
        simp only [List.length_cons]
        omega

/-- When `sep` is nonempty and `s` begins with `sep`, the first split
piece is empty. -/
theorem splitFirst_self_append (sep rest : List Char) (h : sep ≠ []) :
    splitFirst sep (sep ++ rest) = some [] := by
  match sep, h with
  | c :: s2, _ =>
    have hp : (c :: s2).isPrefixOf ((c :: s2) ++ rest) = true :=
      List.isPrefixOf_iff_prefix.mpr (List.prefix_append _ _)
    simp only [List.cons_append] at hp ⊢
    simp [splitFirst, hp]

/-- The boolean month-rollover test, as the lexicographic strict order
on (year, month). -/
theorem has_one_month_passed_iff (current previous : BkkDateTime) :
    has_one_month_passed current previous = true ↔
      (current.year > previous.year ∨
        (current.year = previous.year ∧ current.month > previous.month)) := by
  simp [has_one_month_passed, get_month_and_year]

/-! ## Claims -/

/-- Claim C1: for every key and current instant, `check_to_notify_per_month`
(with the store available) creates the record seeded with the current
instant and returns true when no record exists; overwrites the record
with the current instant and returns true when the stored month has
rolled over; returns false with no write otherwise; and a ledger update
is committed exactly when the result is true. -/
theorem check_to_notify_per_month_spec (db : Ledger) (key : Key) (now : BkkDateTime) :
    (db key = none →
      check_to_notify_per_month false db key now = (some true, updateLedger db key now)) ∧
    (∀ last, db key = some last →
      (has_one_month_passed now (convert_to_timestamp_with_bkk last) = true →
        check_to_notify_per_month false db key now = (some true, updateLedger db key now)) ∧
      (has_one_month_passed now (convert_to_timestamp_with_bkk last) = false →
        check_to_notify_per_month false db key now = (some false, db))) ∧
    ((check_to_notify_per_month false db key now).1 = some true ↔
      (check_to_notify_per_month false db key now).2 ≠ db) := by
  refine ⟨?_, ?_, ?_⟩
  · intro h
    simp [check_to_notify_per_month, h]
  · intro last h
    constructor
    · intro hm
      simp [check_to_notify_per_month, h, hm]
    · intro hm
      simp [check_to_notify_per_month, h, hm]
  · rcases hdb : db key with _ | last
    · have hres : check_to_notify_per_month false db key now =
          (some true, updateLedger db key now) := by
        simp [check_to_notify_per_month, hdb]
      rw [hres]
      constructor
      · intro _ hEq
        have hk := congrFun hEq key
        simp [updateLedger, hdb] at hk
      · intro _
        rfl
    · cases hm : has_one_month_passed now (convert_to_timestamp_with_bkk last) with
      | false =>
        have hres : check_to_notify_per_month false db key now = (some false, db) := by
          simp [check_to_notify_per_month, hdb, hm]
        rw [hres]
        simp
      | true =>
        have hres : check_to_notify_per_month false db key now =
            (some true, updateLedger db key now) := by
          simp [check_to_notify_per_month, hdb, hm]
        rw [hres]
        constructor
        · intro _ hEq
          have hk := congrFun hEq key
          simp [updateLedger, hdb] at hk
          have harith := (has_one_month_passed_iff now (convert_to_timestamp_with_bkk last)).mp hm
          rw [convert_to_timestamp_with_bkk, ← hk] at harith
          rcases harith with h1 | ⟨h1, h2⟩
          · omega
          · omega
        · intro _
          rfl

/-- Witness for C1: on an empty ledger the first call for `"proj-x"`
notifies and seeds the record; one month later it notifies and updates;
within the same month it returns false and writes nothing. -/
theorem check_to_notify_per_month_spec_witness :
    check_to_notify_per_month false emptyLedger projX d20240510 =
      (some true, updateLedger emptyLedger projX d20240510) ∧
    check_to_notify_per_month false ledgerX projX d20240610 =
      (some true, updateLedger ledgerX projX d20240610) ∧
    check_to_notify_per_month false ledgerX projX d20240520 = (some false, ledgerX) :=
  ⟨(check_to_notify_per_month_spec emptyLedger projX d20240510).1 rfl,
   ((check_to_notify_per_month_spec ledgerX projX d20240610).2.1 d20240510 (by decide)).1
     (by decide),
   ((check_to_notify_per_month_spec ledgerX projX d20240520).2.1 d20240510 (by decide)).2
     (by decide)⟩

/-- Claim C2 (evidence of the code bug): when the store raises,
`check_to_notify_per_month` swallows the exception (its
`except Exception` clause prints and returns `None`), and `subscribe`
then treats `None` as falsy, finishing with no notification and NO
propagated error — the failure is converted into a silent
"don't notify", contrary to the spec's propagation requirement. -/
theorem check_store_failure_swallowed (db : Ledger) (now : BkkDateTime) :
    check_to_notify_per_month true db projX now = (none, db) ∧
    subscribe true db ev75 now = Except.ok (Action.noAction, db) :=
  ⟨rfl, rfl⟩

/-- Claim C3: `has_one_month_passed current previous` is true iff
current's year exceeds previous's year, or the years are equal and
current's month exceeds previous's month; with the three concrete
dates of the spec. -/
theorem has_one_month_passed_rollover_spec :
    (∀ current previous : BkkDateTime,
      has_one_month_passed current previous = true ↔
        (current.year > previous.year ∨
          (current.year = previous.year ∧ current.month > previous.month))) ∧
    has_one_month_passed ⟨2024, 2, 1⟩ ⟨2024, 1, 28⟩ = true ∧
    has_one_month_passed ⟨2024, 1, 29⟩ ⟨2024, 1, 1⟩ = false ∧
    has_one_month_passed ⟨2025, 1, 1⟩ ⟨2024, 12, 31⟩ = true :=
  ⟨has_one_month_passed_iff, by decide, by decide, by decide⟩

/-- Counterexample to claim C4 as stated ("with any budgetDisplayName
string ... raises no error"): with the threshold absent and cost 50 ≤
budget 100 but a marker-less label, `subscribe` raises
`InvalidAlertNameException` (the key is resolved before the
threshold-absent branch), and in particular does not return NoAction. -/
theorem subscribe_no_threshold_invalid_label_cex :
    subscribe false emptyLedger evAbsentBad d20240510 =
      Except.error (AlertExc.invalidAlertName noMarker) ∧
    ¬ ∃ L : Ledger, subscribe false emptyLedger evAbsentBad d20240510 =
      Except.ok (Action.noAction, L) := by
  refine ⟨rfl, ?_⟩
  rintro ⟨L, hL⟩
  have h : (Except.error (AlertExc.invalidAlertName noMarker) :
      Except AlertExc (Action × Ledger)) = Except.ok (Action.noAction, L) := hL
  exact Except.noConfusion h

/-- Claim C4 as amended: when `alertThresholdExceeded` is absent,
`costAmount ≤ budgetAmount` AND the display name contains the marker
(so that key resolution, which runs first, succeeds), the evaluation
returns NoAction, leaves the ledger untouched and raises no error. -/
theorem subscribe_no_threshold_below_budget (ev : AlertEvent) (db : Ledger) (now : BkkDateTime)
    (habsent : ev.alertThresholdExceeded = none)
    (hcost : ev.costAmount ≤ ev.budgetAmount)
    (hmarker : markerL <:+: ev.budgetDisplayName) :
    subscribe false db ev now = Except.ok (Action.noAction, db) := by
  rcases h : splitFirst markerL ev.budgetDisplayName with _ | r
  · exact absurd hmarker ((splitFirst_eq_none_iff markerL ev.budgetDisplayName).mp h)
  · simp [subscribe, get_alert_name, h, habsent, hcost]

/-- Witness for the amended C4: threshold absent, cost 50 ≤ budget 100,
well-formed label ⇒ NoAction, same ledger, no error. -/
theorem subscribe_no_threshold_below_budget_witness :
    subscribe false emptyLedger evAbsentGood d20240510 =
      Except.ok (Action.noAction, emptyLedger) :=
  subscribe_no_threshold_below_budget evAbsentGood emptyLedger d20240510 rfl (by decide)
    (by decide)

/-- Claim C5: `get_alert_name` returns exactly the part of the label
preceding the FIRST occurrence of `"-bigquery-notification"` when the
marker occurs, and raises `InvalidAlertNameException` carrying the
offending label exactly when it does not. -/
theorem get_alert_name_spec (s : List Char) :
    (markerL <:+: s →
      ∃ r rest, get_alert_name s = Except.ok r ∧ s = r ++ markerL ++ rest ∧
        ∀ pre suf, s = pre ++ markerL ++ suf → r.length ≤ pre.length) ∧
    (¬ markerL <:+: s → get_alert_name s = Except.error (AlertExc.invalidAlertName s)) := by
  constructor
  · intro hin
    rcases h : splitFirst markerL s with _ | r
    · exact absurd hin (of_eq_true (eq_true ((splitFirst_eq_none_iff markerL s).mp h)))
    · obtain ⟨rest, hrest⟩ := splitFirst_eq_some_append markerL s r h
      exact ⟨r, rest, by simp [get_alert_name, h], hrest,
        splitFirst_first_occurrence markerL s r h⟩
  · intro hn
    have h := (splitFirst_eq_none_iff markerL s).mpr hn
    simp [get_alert_name, h]

/-- Witness for C5: the well-formed label resolves to the part before
the marker, and the marker-less label raises. -/
theorem get_alert_name_spec_witness :
    (∃ r rest, get_alert_name labelX = Except.ok r ∧ labelX = r ++ markerL ++ rest ∧
      ∀ pre suf, labelX = pre ++ markerL ++ suf → r.length ≤ pre.length) ∧
    get_alert_name noMarker = Except.error (AlertExc.invalidAlertName noMarker) :=
  ⟨(get_alert_name_spec labelX).1 (by decide),
   (get_alert_name_spec noMarker).2 (by decide)⟩

/-- Claim C6: the spec's end-to-end scenario — cost 120 over budget 100,
label `"proj-x-bigquery-notification"`, threshold 0.75, no prior
record — produces the notify action for entity `"proj-x"` with the
warning color (`red_code`, the color the 0.75 branch passes to
`send_teams`), a title containing `"75%"`, and afterwards the ledger
holds `"proj-x" ↦` the evaluation time. -/
theorem subscribe_end_to_end_notify :
    subscribe false emptyLedger ev75 d20240510 =
      Except.ok (Action.notify projX (mkTitle threshold_75 labelX)
        (mkContent labelX 120 100) red_code,
        updateLedger emptyLedger projX d20240510) ∧
    "75%".toList <:+: mkTitle threshold_75 labelX ∧
    updateLedger emptyLedger projX d20240510 projX = some d20240510 :=
  ⟨rfl, by decide, by decide⟩

/-- Counterexample to claim C7 as stated ("the result is NoAction" for
every event with an unhandled threshold): with threshold 0.5 and a
marker-less label the evaluation raises `InvalidAlertNameException`
instead of returning NoAction. -/
theorem subscribe_other_threshold_error_cex :
    subscribe false emptyLedger evHalfBad d20240510 =
      Except.error (AlertExc.invalidAlertName noMarker) ∧
    ¬ ∃ L : Ledger, subscribe false emptyLedger evHalfBad d20240510 =
      Except.ok (Action.noAction, L) := by
  refine ⟨rfl, ?_⟩
  rintro ⟨L, hL⟩
  have h : (Except.error (AlertExc.invalidAlertName noMarker) :
      Except AlertExc (Action × Ledger)) = Except.ok (Action.noAction, L) := hL
  exact Except.noConfusion h

/-- Claim C7 as amended: for every event whose threshold is present but
neither 0.75 nor 1.0, no notification is ever produced (no
`send_teams` call for any label), and when the label contains the
marker (and the store is available) the result is NoAction. -/
theorem subscribe_other_threshold_no_send (ev : AlertEvent) (db : Ledger) (now : BkkDateTime)
    (t : ℚ) (ht : ev.alertThresholdExceeded = some t)
    (h75 : t ≠ threshold_75) (h100 : t ≠ threshold_100) :
    (∀ k title content color L, subscribe false db ev now ≠
        Except.ok (Action.notify k title content color, L)) ∧
    (markerL <:+: ev.budgetDisplayName →
      ∃ L, subscribe false db ev now = Except.ok (Action.noAction, L)) := by
  rcases hga : splitFirst markerL ev.budgetDisplayName with _ | r
  · constructor
    · intro k title content color L hL
      simp [subscribe, get_alert_name, hga] at hL
    · intro hmk
      exact absurd hmk
        (of_eq_true (eq_true ((splitFirst_eq_none_iff markerL ev.budgetDisplayName).mp hga)))
  · have hsub : subscribe false db ev now =
        Except.ok (Action.noAction, (check_to_notify_per_month false db r now).2) := by
      simp [subscribe, get_alert_name, hga, ht, h75, h100, ite_self]
    constructor
    · intro k title content color L hL
      rw [hsub] at hL
      simp at hL
    · intro _
      exact ⟨_, hsub⟩

/-- Witness for the amended C7: threshold 0.5 with the well-formed
label never notifies and evaluates to NoAction. -/
theorem subscribe_other_threshold_no_send_witness :
    (∀ k title content color L, subscribe false emptyLedger evHalf d20240510 ≠
        Except.ok (Action.notify k title content color, L)) ∧
    (markerL <:+: evHalf.budgetDisplayName →
      ∃ L, subscribe false emptyLedger evHalf d20240510 =
        Except.ok (Action.noAction, L)) :=
  subscribe_other_threshold_no_send evHalf emptyLedger d20240510 threshold_half rfl
    (by decide) (by decide)

/-- Claim C8: an event with an unhandled threshold still runs the
throttle check before dispatching, so the ledger record is created (if
absent) or overwritten (if the month rolled over) with the current
time even though nothing is sent; any subsequent 0.75 or 1.0 alert
whose label resolves to the same entity key, in the same calendar
month, is then suppressed, the ledger unchanged. -/
theorem subscribe_other_threshold_commits (ev ev2 : AlertEvent) (db : Ledger)
    (now now2 : BkkDateTime) (t t2 : ℚ) (key : Key)
    (ht : ev.alertThresholdExceeded = some t)
    (h75 : t ≠ threshold_75) (h100 : t ≠ threshold_100)
    (hkey : get_alert_name ev.budgetDisplayName = Except.ok key)
    (hcommit : db key = none ∨ ∃ last, db key = some last ∧
      has_one_month_passed now (convert_to_timestamp_with_bkk last) = true)
    (hkey2 : get_alert_name ev2.budgetDisplayName = Except.ok key)
    (ht2 : ev2.alertThresholdExceeded = some t2)
    (ht2handled : t2 = threshold_75 ∨ t2 = threshold_100)
    (hsame : has_one_month_passed now2 (convert_to_timestamp_with_bkk now) = false) :
    subscribe false db ev now = Except.ok (Action.noAction, updateLedger db key now) ∧
    subscribe false (updateLedger db key now) ev2 now2 =
      Except.ok (Action.noAction, updateLedger db key now) := by
  have hcheck : check_to_notify_per_month false db key now =
      (some true, updateLedger db key now) := by
    rcases hcommit with h | ⟨last, hlast, hm⟩
    · simp [check_to_notify_per_month, h]
    · simp [check_to_notify_per_month, hlast, hm]
  constructor
  · simp [subscribe, hkey, ht, h75, h100, hcheck]
  · have hupd : updateLedger db key now key = some now := by simp [updateLedger]
    have hcheck2 : check_to_notify_per_month false (updateLedger db key now) key now2 =
        (some false, updateLedger db key now) := by
      simp [check_to_notify_per_month, hupd, hsame]
    rcases ht2handled with h2 | h2 <;> subst h2 <;> simp [subscribe, hkey2, ht2, hcheck2]

/-- Witness for C8: a 0.5 alert on an empty ledger seeds
`"proj-x" ↦ 2024-05-10` while taking no action; the 0.75 alert ten days
later, resolving to the same key, is suppressed. -/
theorem subscribe_other_threshold_commits_witness :
    subscribe false emptyLedger evHalf d20240510 = Except.ok (Action.noAction, ledgerX) ∧
    subscribe false ledgerX ev75 d20240520 = Except.ok (Action.noAction, ledgerX) :=
  subscribe_other_threshold_commits evHalf ev75 emptyLedger d20240510 d20240520
    threshold_half threshold_75 projX rfl (by decide) (by decide) rfl (Or.inl rfl) rfl rfl
    (Or.inl rfl) (by decide)

/-- Claim C9: the month-rollover comparison is irreflexive and
asymmetric. -/
theorem has_one_month_passed_irrefl_asymm :
    (∀ t : BkkDateTime, has_one_month_passed t t = false) ∧
    (∀ a b : BkkDateTime,
      (has_one_month_passed a b && has_one_month_passed b a) = false) := by
  constructor
  · intro t
    rw [Bool.eq_false_iff]
    intro h
    rcases (has_one_month_passed_iff t t).mp h with h1 | ⟨h1, h2⟩
    · omega
    · omega
  · intro a b
    cases hab : has_one_month_passed a b with
    | false => simp
    | true =>
      cases hba : has_one_month_passed b a with
      | false => simp
      | true =>
        exfalso
        rcases (has_one_month_passed_iff a b).mp hab with h1 | ⟨h1, h2⟩ <;>
          rcases (has_one_month_passed_iff b a).mp hba with g1 | ⟨g1, g2⟩ <;> omega

/-- Claim C10: a label beginning with the marker resolves to the empty
entity key rather than failing — no validation rejects an empty key;
and an evaluation with such a label proceeds normally, notifying under
the empty key. -/
theorem get_alert_name_marker_prefix_empty_key :
    (∀ rest : List Char, get_alert_name (markerL ++ rest) = Except.ok []) ∧
    subscribe false emptyLedger evMarkerOnly d20240510 =
      Except.ok (Action.notify [] (mkTitle threshold_75 markerL)
        (mkContent markerL 120 100) red_code,
        updateLedger emptyLedger [] d20240510) := by
  constructor
  · intro rest
    have h := splitFirst_self_append markerL rest (by decide)
    simp [get_alert_name, h]
  · rfl

end BudgetAlert
